import Mathlib

/-!
Verification development for the prompt-builder file-access core
(`promptbuilder/file_processor.go` and `promptbuilder/types.go`).

Go byte slices and Go strings are both byte sequences; the embedding models
both as Lean `String` (byte length taken via `String.utf8ByteSize`, which is
the UTF-8 byte count, matching Go `len`).  The operating-system services the
code consumes (`filepath.Abs`, `os.UserHomeDir`, `os.Getwd`, `os.TempDir`,
`os.Stat`, `os.ReadFile`) are supplied by an explicit environment record, and
every function that touches them also returns the ordered list of
filesystem/OS operations it performed, so that ordering and
"no filesystem access" properties can be stated directly.
-/

namespace PromptBuilder

/-- Model of Go `unicode.IsSpace` (the code points with the Unicode
White_Space property), used by `strings.TrimSpace`. -/
def isGoSpace (c : Char) : Bool :=
  c = ' ' || c = '\t' || c = '\n' || (0x0B ≤ c.toNat && c.toNat ≤ 0x0D) ||
  c.toNat = 0x85 || c.toNat = 0xA0 || c.toNat = 0x1680 ||
  (0x2000 ≤ c.toNat && c.toNat ≤ 0x200A) ||
  c.toNat = 0x2028 || c.toNat = 0x2029 || c.toNat = 0x202F ||
  c.toNat = 0x205F || c.toNat = 0x3000

/-- `strings.TrimSpace(s) == ""` holds exactly when every character of `s`
is white space; the code only ever uses `TrimSpace` in that comparison, so
only this Boolean is embedded. -/
def trimSpaceIsEmpty (s : String) : Bool :=
  s.data.all isGoSpace

/-- Model of Go `strings.HasPrefix` at the character-list level. -/
def listStartsWith : List Char → List Char → Bool
  | _, [] => true
  | [], _ :: _ => false
  | a :: s, b :: p => a = b && listStartsWith s p

/-- Model of Go `strings.Contains` at the character-list level. -/
def listContainsSub : List Char → List Char → Bool
  | [], pat => listStartsWith [] pat
  | c :: rest, pat => listStartsWith (c :: rest) pat || listContainsSub rest pat

/-- Go `strings.HasPrefix s p`. -/
def strStartsWith (s p : String) : Bool :=
  listStartsWith s.data p.data

/-- Go `strings.Contains s pat`. -/
def strContainsSub (s pat : String) : Bool :=
  listContainsSub s.data pat.data

/-- Go `strings.HasSuffix s p` (used only to state fencing properties). -/
def strEndsWith (s p : String) : Bool :=
  listStartsWith s.data.reverse p.data.reverse

/-- Model of Go `filepath.Ext`: scan the path backwards; stop at a path
separator; at the first dot return the suffix from that dot on.  The first
argument is the remaining characters in reverse order, the second the
characters already scanned, in original order. -/
def filepathExtAux : List Char → List Char → String
  | [], _ => ""
  | c :: rest, acc =>
    if c = '/' then ""
    else if c = '.' then String.mk ('.' :: acc)
    else filepathExtAux rest (c :: acc)

/-- Go `filepath.Ext path`. -/
def filepathExt (path : String) : String :=
  filepathExtAux path.data.reverse []

/-- The error values of `file_processor.go` / `types.go`, with the data each
carries in its formatted message; `wrapped` models `fmt.Errorf` with a `%w`
verb adding a context string around an inner error. -/
inductive PBErr where
  | filePathRequired
  | fileExtensionRequired
  | extensionNotAllowed (ext : String) (allowed : List String)
  | fileTooLarge (path : String) (size maxSize : Int)
  | suspiciousPath (path pattern : String)
  | pathOutsideAllowed (path home cwd tmp : String)
  | pathIsDirectory (path : String)
  | fileContentRequired
  | homeDirLookupFailed
  | getwdFailed
  | absFailed (path : String)
  | readFailed (path : String)
  | statFailed (path : String)
  | wrapped (context : String) (inner : PBErr)
deriving DecidableEq, Repr

/-- Filesystem and OS operations the code can perform, recorded in the
order they are executed. -/
inductive FSOp where
  | opAbs (path : String)
  | opUserHomeDir
  | opGetwd
  | opTempDir
  | opStat (path : String)
  | opRead (path : String)
deriving DecidableEq, Repr

/-- Result of `os.Stat`: the size (Go `int64`) and whether the entry is a
directory. -/
structure GoFileInfo where
  size : Int
  isDir : Bool
deriving DecidableEq, Repr

/-- The operating-system services consumed by the code.  `none` models the
corresponding call returning a non-nil error. -/
structure Env where
  abs : String → Option String
  userHomeDir : Option String
  getwd : Option String
  tempDir : String
  stat : String → Option GoFileInfo
  readFile : String → Option String

/-- Go struct `FileContent` (`types.go`). -/
structure FileContent where
  Path : String
  Content : String
  Size : Int
deriving DecidableEq, Repr

/-- `FileContent.Validate` (`types.go`). -/
def FileContent.Validate (fc : FileContent) : Option PBErr :=
  if trimSpaceIsEmpty fc.Path then some .filePathRequired
  else if fc.Content = "" then some .fileContentRequired
  else none

/-- Go struct `FileProcessor` (`file_processor.go`). -/
structure FileProcessor where
  maxFileSize : Int
  allowedExtensions : List String

/-- `NewFileProcessor` (`file_processor.go`). -/
def NewFileProcessor (maxFileSize : Int) (allowedExtensions : List String) :
    FileProcessor :=
  { maxFileSize := maxFileSize, allowedExtensions := allowedExtensions }

/-- `ValidateFile` (`file_processor.go`): empty-path check, extension
presence check, then the allow-list loop (exact, case-sensitive string
comparison). -/
def ValidateFile (fp : FileProcessor) (path : String) : Option PBErr :=
  if trimSpaceIsEmpty path then some .filePathRequired
  else
    let ext := filepathExt path
    if ext = "" then some .fileExtensionRequired
    else if fp.allowedExtensions.any (fun allowedExt => ext = allowedExt) then
      none
    else some (.extensionNotAllowed ext fp.allowedExtensions)

/-- The `suspiciousPatterns` slice of `validatePathSecurity`, in source
order. -/
def suspiciousPatterns : List String :=
  ["..", "~", "/etc", "/var", "/usr", "/bin", "/sbin", "/dev", "/sys", "/proc"]

/-- `validatePathSecurity` (`file_processor.go`): the pattern denylist loop
(no OS calls), then home/cwd/temp lookups, the plain string-prefix
containment check, and the final stat with the directory check.  Returns
the error (if any) together with the OS operations performed, in order. -/
def validatePathSecurity (env : Env) (absPath : String) :
    Option PBErr × List FSOp :=
  match suspiciousPatterns.find? (fun pattern => strContainsSub absPath pattern) with
  | some pattern => (some (.suspiciousPath absPath pattern), [])
  | none =>
    match env.userHomeDir with
    | none => (some .homeDirLookupFailed, [.opUserHomeDir])
    | some homeDir =>
      match env.getwd with
      | none => (some .getwdFailed, [.opUserHomeDir, .opGetwd])
      | some cwd =>
        let tmpDir := env.tempDir
        let ops : List FSOp := [.opUserHomeDir, .opGetwd, .opTempDir]
        let isAllowed := strStartsWith absPath homeDir ||
          strStartsWith absPath cwd || strStartsWith absPath tmpDir
        if !isAllowed then
          (some (.pathOutsideAllowed absPath homeDir cwd tmpDir), ops)
        else
          match env.stat absPath with
          | none => (some (.statFailed absPath), ops ++ [.opStat absPath])
          | some fileInfo =>
            if fileInfo.isDir then
              (some (.pathIsDirectory absPath), ops ++ [.opStat absPath])
            else (none, ops ++ [.opStat absPath])

/-- `ProcessFile` (`file_processor.go`): validation, `filepath.Abs`,
security validation, full read, size ceiling, then the secondary stat of
the original path.  Returns the result together with the OS operations
performed, in order. -/
def ProcessFile (fp : FileProcessor) (env : Env) (path : String) :
    Except PBErr FileContent × List FSOp :=
  match ValidateFile fp path with
  | some e => (.error (.wrapped "file validation failed" e), [])
  | none =>
    match env.abs path with
    | none =>
      (.error (.wrapped ("invalid file path " ++ path) (.absFailed path)),
        [.opAbs path])
    | some absPath =>
      match validatePathSecurity env absPath with
      | (some e, ops) =>
        (.error (.wrapped ("security validation failed for " ++ absPath) e),
          FSOp.opAbs path :: ops)
      | (none, ops) =>
        match env.readFile absPath with
        | none =>
          (.error (.wrapped ("failed to read file " ++ absPath)
            (.readFailed absPath)), FSOp.opAbs path :: ops ++ [.opRead absPath])
        | some content =>
          if (content.utf8ByteSize : Int) > fp.maxFileSize then
            (.error (.fileTooLarge path content.utf8ByteSize fp.maxFileSize),
              FSOp.opAbs path :: ops ++ [.opRead absPath])
          else
            match env.stat path with
            | none =>
              (.error (.wrapped ("failed to get file info for " ++ path)
                (.statFailed path)),
                FSOp.opAbs path :: ops ++ [.opRead absPath, .opStat path])
            | some fileInfo =>
              (.ok { Path := path, Content := content, Size := fileInfo.size },
                FSOp.opAbs path :: ops ++ [.opRead absPath, .opStat path])

instance {ε α : Type} [DecidableEq ε] [DecidableEq α] :
    DecidableEq (Except ε α) := fun x y =>
  match x, y with
  | .error a, .error b =>
    if h : a = b then isTrue (by rw [h])
    else isFalse (by intro hh; cases hh; exact h rfl)
  | .error _, .ok _ => isFalse (by intro hh; cases hh)
  | .ok _, .error _ => isFalse (by intro hh; cases hh)
  | .ok a, .ok b =>
    if h : a = b then isTrue (by rw [h])
    else isFalse (by intro hh; cases hh; exact h rfl)

/-- `isCodeFile` (`file_processor.go`). -/
def isCodeFile (ext : String) : Bool :=
  let codeExtensions : List String :=
    [".go", ".py", ".js", ".ts", ".java", ".cpp", ".c", ".h", ".cs",
     ".php", ".rb", ".rs"]
  codeExtensions.any (fun codeExt => ext = codeExt)

/-- The `languageMap` of `getLanguageFromExt`, as an association list (the
Go map has distinct keys, so lookup order is immaterial). -/
def languageMap : List (String × String) :=
  [(".go", "go"), (".py", "python"), (".js", "javascript"),
   (".ts", "typescript"), (".java", "java"), (".cpp", "cpp"), (".c", "c"),
   (".h", "c"), (".cs", "csharp"), (".php", "php"), (".rb", "ruby"),
   (".rs", "rust")]

/-- `getLanguageFromExt` (`file_processor.go`). -/
def getLanguageFromExt (ext : String) : String :=
  match languageMap.lookup ext with
  | some lang => lang
  | none => "text"

/-- `FenceContent` (`file_processor.go`): BEGIN marker line, optional
opening fence with language tag, the content verbatim, optional closing
fence, END marker.  (The Go method ignores its receiver.) -/
def FenceContent (content filename : String) : String :=
  let ext := filepathExt filename
  let s1 := "BEGIN " ++ filename ++ "\n"
  let s2 := if isCodeFile ext then s1 ++ "```" ++ getLanguageFromExt ext ++ "\n" else s1
  let s3 := s2 ++ content
  let s4 := if isCodeFile ext then s3 ++ "\n```" else s3
  s4 ++ "\nEND " ++ filename

/-! ### Sample configuration and environment, used to instantiate theorems -/

/-- A sample processor configuration. -/
def fpSample : FileProcessor := NewFileProcessor 1000 [".go", ".py", ".txt"]

/-- A sample environment: user `alice` working in `/home/alice/work`, with a
5-byte regular file `a.go`, an empty regular file `e.go`, and a directory
`d.go` in the working directory. -/
def envSample : Env where
  abs := fun p =>
    if strStartsWith p "/" then some p else some ("/home/alice/work/" ++ p)
  userHomeDir := some "/home/alice"
  getwd := some "/home/alice/work"
  tempDir := "/tmp"
  stat := fun p =>
    if p = "/home/alice/work/a.go" || p = "a.go" then some ⟨5, false⟩
    else if p = "/home/alice/work/e.go" || p = "e.go" then some ⟨0, false⟩
    else if p = "/home/alice/work/d.go" || p = "d.go" then some ⟨128, true⟩
    else none
  readFile := fun p =>
    if p = "/home/alice/work/a.go" then some "hello"
    else if p = "/home/alice/work/e.go" then some ""
    else none

/-! ### Helper lemmas -/

/-- A nonempty result of the extension scan means the path contains a dot. -/
theorem filepathExtAux_ne_empty {l acc : List Char}
    (h : filepathExtAux l acc ≠ "") : '.' ∈ l := by
  induction l generalizing acc with
  | nil => exact absurd rfl h
  | cons c rest ih =>
    by_cases hs : c = '/'
    · rw [filepathExtAux, if_pos hs] at h
      exact absurd rfl h
    · by_cases hd : c = '.'
      · exact hd ▸ List.mem_cons_self c rest
      · rw [filepathExtAux, if_neg hs, if_neg hd] at h
        exact List.mem_cons_of_mem c (ih h)

/-- A path with a nonempty extension is not all-whitespace. -/
theorem trimSpaceIsEmpty_false_of_ext (path : String)
    (h : filepathExt path ≠ "") : trimSpaceIsEmpty path = false := by
  have hdot : '.' ∈ path.data := by
    exact List.mem_reverse.mp (filepathExtAux_ne_empty h)
  by_contra hb
  rw [Bool.not_eq_false] at hb
  have hall := List.all_eq_true.mp hb '.' hdot
  exact absurd hall (by decide)

/-- `ValidateFile` accepts a path whose nonempty extension is in the
allow-list. -/
theorem ValidateFile_ok (fp : FileProcessor) (path : String)
    (hne : filepathExt path ≠ "")
    (hmem : filepathExt path ∈ fp.allowedExtensions) :
    ValidateFile fp path = none := by
  have hblank := trimSpaceIsEmpty_false_of_ext path hne
  have hany : fp.allowedExtensions.any
      (fun allowedExt => filepathExt path = allowedExt) = true := by
    rw [List.any_eq_true]
    exact ⟨filepathExt path, hmem, by simp⟩
  simp [ValidateFile, hblank, hne, hany]

/-- `validatePathSecurity` succeeds on a clean, contained path naming a
non-directory, and performs exactly the home, cwd, temp and stat calls. -/
theorem validatePathSecurity_ok (env : Env) (absPath home cwd : String)
    (fileInfo : GoFileInfo)
    (hh : env.userHomeDir = some home) (hw : env.getwd = some cwd)
    (hns : ∀ p ∈ suspiciousPatterns, strContainsSub absPath p = false)
    (hpre : strStartsWith absPath home = true ∨
      strStartsWith absPath cwd = true ∨
      strStartsWith absPath env.tempDir = true)
    (hstat : env.stat absPath = some fileInfo) (hdir : fileInfo.isDir = false) :
    validatePathSecurity env absPath =
      (none, [.opUserHomeDir, .opGetwd, .opTempDir, .opStat absPath]) := by
  have hfind : suspiciousPatterns.find?
      (fun pattern => strContainsSub absPath pattern) = none := by
    rw [List.find?_eq_none]
    intro x hx
    simp [hns x hx]
  have hallow : (strStartsWith absPath home || strStartsWith absPath cwd ||
      strStartsWith absPath env.tempDir) = true := by
    rcases hpre with h | h | h <;> simp [h]
  simp [validatePathSecurity, hfind, hh, hw, hallow, hstat, hdir]

/-- `ValidateFile` succeeding implies the path is not blank. -/
theorem ValidateFile_none_not_blank (fp : FileProcessor) (path : String)
    (h : ValidateFile fp path = none) : trimSpaceIsEmpty path = false := by
  by_contra hb
  rw [Bool.not_eq_false] at hb
  simp [ValidateFile, hb] at h

/-! ### Claim theorems -/

/-- C2: an absolute path containing any denylisted substring is rejected by
`validatePathSecurity` with `suspiciousPath` naming the matched pattern,
for every environment (so regardless of root containment), and with an
empty operation trace: the rejection precedes the root-containment lookups
and any stat. -/
theorem C2_denylist_rejects_first (env : Env) (absPath p : String)
    (hp : p ∈ suspiciousPatterns) (hc : strContainsSub absPath p = true) :
    ∃ pattern, pattern ∈ suspiciousPatterns ∧
      strContainsSub absPath pattern = true ∧
      validatePathSecurity env absPath =
        (some (.suspiciousPath absPath pattern), []) := by
  have hs : (suspiciousPatterns.find?
      (fun pattern => strContainsSub absPath pattern)).isSome := by
    rw [List.find?_isSome]
    exact ⟨p, hp, by simp [hc]⟩
  obtain ⟨pattern, hfind⟩ := Option.isSome_iff_exists.mp hs
  refine ⟨pattern, List.mem_of_find?_eq_some hfind, ?_, ?_⟩
  · have := List.find?_some hfind
    simpa using this
  · simp [validatePathSecurity, hfind]

/-- C2 witness: `/etc/passwd` is rejected as suspicious in the sample
environment. -/
theorem C2_denylist_rejects_first_witness :
    ∃ pattern, pattern ∈ suspiciousPatterns ∧
      strContainsSub "/etc/passwd" pattern = true ∧
      validatePathSecurity envSample "/etc/passwd" =
        (some (.suspiciousPath "/etc/passwd" pattern), []) :=
  C2_denylist_rejects_first envSample "/etc/passwd" "/etc" (by decide) (by decide)

/-- C3: an absolute path with no denylisted substring and none of the three
roots as a plain string prefix is rejected with `pathOutsideAllowed`
carrying all three roots, after exactly the home, cwd and temp lookups. -/
theorem C3_outside_roots_rejected (env : Env) (absPath home cwd : String)
    (hh : env.userHomeDir = some home) (hw : env.getwd = some cwd)
    (hns : ∀ p ∈ suspiciousPatterns, strContainsSub absPath p = false)
    (h1 : strStartsWith absPath home = false)
    (h2 : strStartsWith absPath cwd = false)
    (h3 : strStartsWith absPath env.tempDir = false) :
    validatePathSecurity env absPath =
      (some (.pathOutsideAllowed absPath home cwd env.tempDir),
        [.opUserHomeDir, .opGetwd, .opTempDir]) := by
  have hfind : suspiciousPatterns.find?
      (fun pattern => strContainsSub absPath pattern) = none := by
    rw [List.find?_eq_none]
    intro x hx
    simp [hns x hx]
  simp [validatePathSecurity, hfind, hh, hw, h1, h2, h3]

/-- C3 witness: `/opt/x.go` is outside home, cwd and temp in the sample
environment and is rejected with all three roots reported. -/
theorem C3_outside_roots_rejected_witness :
    validatePathSecurity envSample "/opt/x.go" =
      (some (.pathOutsideAllowed "/opt/x.go" "/home/alice" "/home/alice/work"
        "/tmp"), [.opUserHomeDir, .opGetwd, .opTempDir]) :=
  C3_outside_roots_rejected envSample "/opt/x.go" "/home/alice"
    "/home/alice/work" rfl rfl (by decide) (by decide) (by decide) (by decide)

/-- C4: a path whose extension is nonempty but not an exact (case-sensitive)
member of the allow-list makes `ProcessFile` fail with
`extensionNotAllowed` (wrapped with validation context) with an empty
operation trace: no resolution, stat or read is performed. -/
theorem C4_extension_not_allowed (fp : FileProcessor) (env : Env)
    (path : String) (hne : filepathExt path ≠ "")
    (hna : filepathExt path ∉ fp.allowedExtensions) :
    ProcessFile fp env path =
      (.error (.wrapped "file validation failed"
        (.extensionNotAllowed (filepathExt path) fp.allowedExtensions)),
        []) := by
  have hblank := trimSpaceIsEmpty_false_of_ext path hne
  have hany : fp.allowedExtensions.any
      (fun allowedExt => filepathExt path = allowedExt) = false := by
    rw [List.any_eq_false]
    intro a ha
    simp only [decide_eq_true_eq]
    intro hEq
    exact hna (hEq ▸ ha)
  simp [ProcessFile, ValidateFile, hblank, hne, hany]

/-- C4 witness: `a.md` is rejected by the sample configuration with no
filesystem operation. -/
theorem C4_extension_not_allowed_witness :
    ProcessFile fpSample envSample "a.md" =
      (.error (.wrapped "file validation failed"
        (.extensionNotAllowed ".md" [".go", ".py", ".txt"])), []) :=
  C4_extension_not_allowed fpSample envSample "a.md" (by decide) (by decide)

/-- C1: for a path with an allowed extension whose resolved absolute path is
clean, contained in a root, and names a regular file whose content fits the
size ceiling, `ProcessFile` returns a `FileContent` whose `Path` is the
original (pre-resolution) path string, whose `Content` is exactly the bytes
read from disk, and whose `Size` is the size reported by the secondary stat
of the original path. -/
theorem C1_process_success (fp : FileProcessor) (env : Env)
    (path absPath home cwd content : String) (fileInfo fileInfo2 : GoFileInfo)
    (hne : filepathExt path ≠ "")
    (hmem : filepathExt path ∈ fp.allowedExtensions)
    (habs : env.abs path = some absPath)
    (hns : ∀ p ∈ suspiciousPatterns, strContainsSub absPath p = false)
    (hh : env.userHomeDir = some home) (hw : env.getwd = some cwd)
    (hpre : strStartsWith absPath home = true ∨
      strStartsWith absPath cwd = true ∨
      strStartsWith absPath env.tempDir = true)
    (hstat : env.stat absPath = some fileInfo) (hdir : fileInfo.isDir = false)
    (hread : env.readFile absPath = some content)
    (hsize : (content.utf8ByteSize : Int) ≤ fp.maxFileSize)
    (hstat2 : env.stat path = some fileInfo2) :
    ProcessFile fp env path =
      (.ok { Path := path, Content := content, Size := fileInfo2.size },
        [.opAbs path, .opUserHomeDir, .opGetwd, .opTempDir, .opStat absPath,
          .opRead absPath, .opStat path]) := by
  have hv := ValidateFile_ok fp path hne hmem
  have hsec := validatePathSecurity_ok env absPath home cwd fileInfo hh hw hns
    hpre hstat hdir
  have hnotbig : ¬ ((content.utf8ByteSize : Int) > fp.maxFileSize) :=
    not_lt.mpr hsize
  simp [ProcessFile, hv, habs, hsec, hread, hnotbig, hstat2]

/-- C1 witness: the sample 5-byte file `a.go` is processed successfully
with its original path, its on-disk content, and its stat size. -/
theorem C1_process_success_witness :
    ProcessFile fpSample envSample "a.go" =
      (.ok { Path := "a.go", Content := "hello", Size := 5 },
        [.opAbs "a.go", .opUserHomeDir, .opGetwd, .opTempDir,
          .opStat "/home/alice/work/a.go", .opRead "/home/alice/work/a.go",
          .opStat "a.go"]) :=
  C1_process_success fpSample envSample "a.go" "/home/alice/work/a.go"
    "/home/alice" "/home/alice/work" "hello" ⟨5, false⟩ ⟨5, false⟩
    (by decide) (by decide) (by decide) (by decide) rfl rfl
    (Or.inl (by decide)) (by decide) rfl (by decide) (by decide) (by decide)

/-- C5: a file that passes validation and security but whose content exceeds
`maxFileSize` makes `ProcessFile` fail with `fileTooLarge` reporting both
the actual size and the configured maximum; the operation trace shows the
read of the full content happened before the failure. -/
theorem C5_file_too_large (fp : FileProcessor) (env : Env)
    (path absPath home cwd content : String) (fileInfo : GoFileInfo)
    (hne : filepathExt path ≠ "")
    (hmem : filepathExt path ∈ fp.allowedExtensions)
    (habs : env.abs path = some absPath)
    (hns : ∀ p ∈ suspiciousPatterns, strContainsSub absPath p = false)
    (hh : env.userHomeDir = some home) (hw : env.getwd = some cwd)
    (hpre : strStartsWith absPath home = true ∨
      strStartsWith absPath cwd = true ∨
      strStartsWith absPath env.tempDir = true)
    (hstat : env.stat absPath = some fileInfo) (hdir : fileInfo.isDir = false)
    (hread : env.readFile absPath = some content)
    (hbig : (content.utf8ByteSize : Int) > fp.maxFileSize) :
    ProcessFile fp env path =
      (.error (.fileTooLarge path content.utf8ByteSize fp.maxFileSize),
        [.opAbs path, .opUserHomeDir, .opGetwd, .opTempDir, .opStat absPath,
          .opRead absPath]) := by
  have hv := ValidateFile_ok fp path hne hmem
  have hsec := validatePathSecurity_ok env absPath home cwd fileInfo hh hw hns
    hpre hstat hdir
  simp [ProcessFile, hv, habs, hsec, hread, hbig]

/-- C5 witness: with the ceiling lowered to 3 bytes, the 5-byte file `a.go`
is rejected as too large, and only after its content was read. -/
theorem C5_file_too_large_witness :
    ProcessFile (NewFileProcessor 3 [".go"]) envSample "a.go" =
      (.error (.fileTooLarge "a.go" 5 3),
        [.opAbs "a.go", .opUserHomeDir, .opGetwd, .opTempDir,
          .opStat "/home/alice/work/a.go", .opRead "/home/alice/work/a.go"]) :=
  C5_file_too_large (NewFileProcessor 3 [".go"]) envSample "a.go"
    "/home/alice/work/a.go" "/home/alice" "/home/alice/work" "hello"
    ⟨5, false⟩ (by decide) (by decide) (by decide) (by decide) rfl rfl
    (Or.inl (by decide)) (by decide) (by decide) rfl (by decide)

/-- C6: a validated, clean, contained path that denotes a directory makes
`ProcessFile` fail with `pathIsDirectory` raised by the security check's
final stat, wrapped with security context, and the operation trace contains
no read. -/
theorem C6_directory_rejected (fp : FileProcessor) (env : Env)
    (path absPath home cwd : String) (fileInfo : GoFileInfo)
    (hne : filepathExt path ≠ "")
    (hmem : filepathExt path ∈ fp.allowedExtensions)
    (habs : env.abs path = some absPath)
    (hns : ∀ p ∈ suspiciousPatterns, strContainsSub absPath p = false)
    (hh : env.userHomeDir = some home) (hw : env.getwd = some cwd)
    (hpre : strStartsWith absPath home = true ∨
      strStartsWith absPath cwd = true ∨
      strStartsWith absPath env.tempDir = true)
    (hstat : env.stat absPath = some fileInfo) (hdir : fileInfo.isDir = true) :
    ProcessFile fp env path =
      (.error (.wrapped ("security validation failed for " ++ absPath)
        (.pathIsDirectory absPath)),
        [.opAbs path, .opUserHomeDir, .opGetwd, .opTempDir,
          .opStat absPath]) := by
  have hv := ValidateFile_ok fp path hne hmem
  have hfind : suspiciousPatterns.find?
      (fun pattern => strContainsSub absPath pattern) = none := by
    rw [List.find?_eq_none]
    intro x hx
    simp [hns x hx]
  have hallow : (strStartsWith absPath home || strStartsWith absPath cwd ||
      strStartsWith absPath env.tempDir) = true := by
    rcases hpre with h | h | h <;> simp [h]
  have hsec : validatePathSecurity env absPath =
      (some (.pathIsDirectory absPath),
        [.opUserHomeDir, .opGetwd, .opTempDir, .opStat absPath]) := by
    simp [validatePathSecurity, hfind, hh, hw, hallow, hstat, hdir]
  simp [ProcessFile, hv, habs, hsec]

/-- C6 witness: the sample directory `d.go` is rejected as a directory with
no read in the trace. -/
theorem C6_directory_rejected_witness :
    ProcessFile fpSample envSample "d.go" =
      (.error (.wrapped "security validation failed for /home/alice/work/d.go"
        (.pathIsDirectory "/home/alice/work/d.go")),
        [.opAbs "d.go", .opUserHomeDir, .opGetwd, .opTempDir,
          .opStat "/home/alice/work/d.go"]) :=
  C6_directory_rejected fpSample envSample "d.go" "/home/alice/work/d.go"
    "/home/alice" "/home/alice/work" ⟨128, true⟩ (by decide) (by decide)
    (by decide) (by decide) rfl rfl (Or.inl (by decide)) (by decide) (by decide)

/-- C7 counterexample: processing the empty regular file `e.go` succeeds,
but the returned `FileContent` has empty `Content` and therefore fails
`FileContent.Validate`; so a successful `ProcessFile` result does not
always pass `Validate`. -/
theorem C7_empty_file_fails_validate :
    (ProcessFile fpSample envSample "e.go").1 =
      .ok { Path := "e.go", Content := "", Size := 0 } ∧
    FileContent.Validate { Path := "e.go", Content := "", Size := 0 } =
      some .fileContentRequired := by
  constructor
  · decide
  · decide

/-- C7 (amended): every `FileContent` produced by a successful
`ProcessFile` call carries the original path, which is not blank; its
`Content` may be empty (an empty file is read successfully), and
`FileContent.Validate` passes exactly when the `Content` is non-empty. -/
theorem C7_ok_validate_iff_nonempty (fp : FileProcessor) (env : Env)
    (path : String) (fc : FileContent)
    (h : (ProcessFile fp env path).1 = .ok fc) :
    fc.Path = path ∧ trimSpaceIsEmpty fc.Path = false ∧
      (FileContent.Validate fc = none ↔ fc.Content ≠ "") := by
  cases hv : ValidateFile fp path with
  | some e => simp [ProcessFile, hv] at h
  | none =>
    have hblank := ValidateFile_none_not_blank fp path hv
    cases habs : env.abs path with
    | none => simp [ProcessFile, hv, habs] at h
    | some absPath =>
      cases hsec : validatePathSecurity env absPath with
      | mk o ops =>
        cases o with
        | some e => simp [ProcessFile, hv, habs, hsec] at h
        | none =>
          cases hread : env.readFile absPath with
          | none => simp [ProcessFile, hv, habs, hsec, hread] at h
          | some content =>
            by_cases hbig : (content.utf8ByteSize : Int) > fp.maxFileSize
            · simp [ProcessFile, hv, habs, hsec, hread, hbig] at h
            · cases hst : env.stat path with
              | none => simp [ProcessFile, hv, habs, hsec, hread, hbig, hst] at h
              | some fileInfo =>
                simp only [ProcessFile, hv, habs, hsec, hread, hbig, if_false,
                  if_neg hbig, hst, Except.ok.injEq] at h
                subst h
                refine ⟨rfl, hblank, ?_⟩
                by_cases hc : content = "" <;>
                  simp [FileContent.Validate, hblank, hc]

/-- C7 (amended) witness: the successful processing of `a.go` yields a
`FileContent` with the original non-blank path whose `Validate` passes. -/
theorem C7_ok_validate_iff_nonempty_witness :
    ({ Path := "a.go", Content := "hello", Size := 5 } : FileContent).Path =
      "a.go" ∧
    trimSpaceIsEmpty "a.go" = false ∧
    (FileContent.Validate { Path := "a.go", Content := "hello", Size := 5 } =
      none ↔ ("hello" : String) ≠ "") :=
  C7_ok_validate_iff_nonempty fpSample envSample "a.go"
    { Path := "a.go", Content := "hello", Size := 5 } (by decide)

/-- Every extension `isCodeFile` accepts has a specific entry in the
language table, so the `"text"` fallback is not used for it. -/
theorem getLanguageFromExt_ne_text (ext : String) (h : isCodeFile ext = true) :
    getLanguageFromExt ext ≠ "text" := by
  simp [isCodeFile] at h
  rcases h with h | h | h | h | h | h | h | h | h | h | h | h <;>
    rw [h] <;> decide

/-- C8: fencing the content `hello` under the display name `a.go` yields a
string that begins with the line `BEGIN a.go`, contains an opening fence
tagged `go` and a closing fence, contains `hello`, and ends with
`END a.go`. -/
theorem C8_fence_code_file :
    FenceContent "hello" "a.go" = "BEGIN a.go\n```go\nhello\n```\nEND a.go" ∧
    strStartsWith (FenceContent "hello" "a.go") "BEGIN a.go\n" = true ∧
    strContainsSub (FenceContent "hello" "a.go") "```go\n" = true ∧
    strContainsSub (FenceContent "hello" "a.go") "\n```" = true ∧
    strContainsSub (FenceContent "hello" "a.go") "hello" = true ∧
    strEndsWith (FenceContent "hello" "a.go") "END a.go" = true := by
  refine ⟨by decide, by decide, by decide, by decide, by decide, by decide⟩

/-- C9: fencing under a display name whose extension is not in the
code-extension set emits only the BEGIN marker, the content verbatim, and
the END marker, with no fence delimiters; in particular
`FenceContent "hello" "a.xyz"` is exactly `BEGIN a.xyz\nhello\nEND a.xyz`. -/
theorem C9_fence_non_code_file :
    FenceContent "hello" "a.xyz" = "BEGIN a.xyz\nhello\nEND a.xyz" ∧
    strContainsSub (FenceContent "hello" "a.xyz") "```" = false ∧
    ∀ content filename : String, isCodeFile (filepathExt filename) = false →
      FenceContent content filename =
        "BEGIN " ++ filename ++ "\n" ++ content ++ "\nEND " ++ filename := by
  refine ⟨by decide, by decide, ?_⟩
  intro content filename h
  simp only [FenceContent, h, Bool.false_eq_true, if_false]

/-- C9 witness: the general part of C9 applied to content `x` and display
name `b.md`. -/
theorem C9_fence_non_code_file_witness :
    FenceContent "x" "b.md" =
      "BEGIN " ++ "b.md" ++ "\n" ++ "x" ++ "\nEND " ++ "b.md" :=
  C9_fence_non_code_file.2.2 "x" "b.md" (by decide)

/-- C10 counterexample: content is embedded verbatim, so an output of
`FenceContent` can contain the string `` ```text `` when the content itself
carries it; the output does not avoid that string for every content and
display name. -/
theorem C10_content_can_carry_text_tag :
    strContainsSub (FenceContent "```text" "a.xyz") "```text" = true := by
  decide

/-- C10 (amended): the fence tag `FenceContent` itself emits is never
`text`: for every display name whose extension `isCodeFile` accepts, the
output is the BEGIN line, an opening fence tagged with a language different
from `text`, the content, the closing fence, and the END marker (and
non-code extensions get no fence at all); `` ```text `` can appear in the
output only if the content or display name carries it. -/
theorem C10_fence_tag_never_text (content filename : String)
    (h : isCodeFile (filepathExt filename) = true) :
    ∃ lang, lang ≠ "text" ∧
      FenceContent content filename =
        "BEGIN " ++ filename ++ "\n" ++ "```" ++ lang ++ "\n" ++ content ++
          "\n```" ++ "\nEND " ++ filename := by
  refine ⟨getLanguageFromExt (filepathExt filename),
    getLanguageFromExt_ne_text _ h, ?_⟩
  simp only [FenceContent, h, if_true]

/-- C10 (amended) witness: fencing `hi` as `m.py` uses the `python` tag,
not `text`. -/
theorem C10_fence_tag_never_text_witness :
    ∃ lang, lang ≠ "text" ∧
      FenceContent "hi" "m.py" =
        "BEGIN " ++ "m.py" ++ "\n" ++ "```" ++ lang ++ "\n" ++ "hi" ++
          "\n```" ++ "\nEND " ++ "m.py" :=
  C10_fence_tag_never_text "hi" "m.py" (by decide)

end PromptBuilder
